import Mathlib

/-!
Verification of the azul indexer core against its specification.

The definitions below are shallow embeddings of the Python sources:

* `BaseIndexer.merge` and the retry loop of `BaseIndexer.index`
  (indexer/utils/indexer.py),
* the zarr-chunk file filter, `TransformerVisitor.visit`,
  `Transformer._find_ancestor_samples` and `Transformer._get_project`
  (src/azul/project/hca/transformers.py).

Machine dictionaries become association lists that keep insertion order
(the semantics of Python dicts), bundle versions are strings compared
lexicographically (Python string comparison), and fallible code returns
`Option` or `Except`.
-/

namespace Azul

/-- One entry of a Document `bundles` provenance list, as built by the
transformer module.  The `uuid` / `version` fields are read by
`BaseIndexer.merge` (indexer/utils/indexer.py lines 101-110).

Modelled from the spec: the transformer module that builds the document
content (`utils/transformers.py`, absent from the sources) places the
facts contributed by one bundle inside that bundle entry of the
`bundles` list; the spec scenario (a re-delivered file size reported by
the aggregate together with one `bundles` entry at the later version)
requires this layout, `contents` stands for those facts. -/
structure BundleEntry (α : Type) where
  uuid : String
  version : String
  contents : α
deriving Repr, DecidableEq

/-- A stored aggregate document: an entity id plus the `bundles`
provenance list.  Everything `BaseIndexer.merge` touches is the
`bundles` key; the entity id is the document key and is the same for
every delivery of the same entity. -/
structure ESDocument (α : Type) where
  entity_id : String
  bundles : List (BundleEntry α)
deriving Repr, DecidableEq

/-- Python string comparison on the underlying character sequences:
lexicographic by code point, a strict prefix sorts first. -/
def charListLt : List Char → List Char → Bool
  | _, [] => false
  | [], _ :: _ => true
  | a :: as, b :: bs =>
    a.toNat < b.toNat || (a.toNat == b.toNat && charListLt as bs)

/-- Python `v1 < v2` on version strings. -/
def versionLt (v1 v2 : String) : Bool :=
  charListLt v1.toList v2.toList

/-- Python `v1 <= v2` on version strings: not `v2 < v1`. -/
def versionLe (v1 v2 : String) : Bool :=
  !versionLt v2 v1

/-- Python `max(bundle, new_bundle, key=lambda x: x["version"])`
(indexer/utils/indexer.py lines 105-107): the second argument wins only
when its key is strictly greater, ties keep the first (stored) entry. -/
def latestBundle {α : Type} (bundle new_bundle : BundleEntry α) : BundleEntry α :=
  if versionLt bundle.version new_bundle.version then new_bundle else bundle

/-- `BaseIndexer.merge` (indexer/utils/indexer.py lines 93-113).
A falsy stored document (`None` or the empty dict substituted on a 404)
is `none`.  The source reads `new_document["bundles"][0]`, which raises
on an empty list: that failure is `none`.  Otherwise every stored entry
with the same uuid as the new entry is replaced by the version-wise
maximum of the two and all other stored entries pass through; the new
document then carries the updated list. -/
def merge {α : Type} (new_document : ESDocument α) (stored_document : Option (ESDocument α)) :
    Option (ESDocument α) :=
  match stored_document with
  | none => some new_document
  | some stored =>
    match new_document.bundles.head? with
    | none => none
    | some new_bundle =>
      some { new_document with
             bundles := stored.bundles.map fun bundle =>
               if bundle.uuid == new_bundle.uuid then latestBundle bundle new_bundle
               else bundle }

/-- The version recorded for bundle uuid `u` in a document, if any. -/
def bundleVersionOf {α : Type} (d : ESDocument α) (u : String) : Option String :=
  (d.bundles.find? fun b => b.uuid == u).map BundleEntry.version

/-- Mapping a function that fixes every element of a list is the
identity. -/
theorem map_eq_self_of_fixes {α : Type} (f : α → α) :
    ∀ (l : List α), (∀ a ∈ l, f a = a) → l.map f = l := by
  intro l h
  induction l with
  | nil => rfl
  | cons a l ih =>
    simp only [List.map_cons, List.cons.injEq]
    exact ⟨h a (List.mem_cons_self a l), ih fun b hb => h b (List.mem_cons_of_mem a hb)⟩

/-- Strictness: a character list never sorts below itself. -/
theorem charListLt_irrefl : ∀ l : List Char, charListLt l l = false := by
  intro l
  induction l with
  | nil => rfl
  | cons a as ih => simp [charListLt, ih]

/-- Asymmetry of the Python string order. -/
theorem charListLt_asymm : ∀ l1 l2 : List Char, charListLt l1 l2 = true → charListLt l2 l1 = false := by
  intro l1
  induction l1 with
  | nil =>
    intro l2 h
    cases l2 with
    | nil => simp [charListLt] at h
    | cons b bs => rfl
  | cons a as ih =>
    intro l2 h
    cases l2 with
    | nil => simp [charListLt] at h
    | cons b bs =>
      simp only [charListLt, Bool.or_eq_true, Bool.and_eq_true, decide_eq_true_eq,
                 beq_iff_eq] at h
      simp only [charListLt, Bool.or_eq_false_iff, Bool.and_eq_false_iff,
                 decide_eq_false_iff_not, beq_eq_false_iff_ne, ne_eq]
      rcases h with h | ⟨heq, hrec⟩
      · exact ⟨Nat.lt_asymm h, Or.inl fun hba => absurd (hba ▸ h) (Nat.lt_irrefl _)⟩
      · exact ⟨fun hba => absurd (heq ▸ hba) (Nat.lt_irrefl _), Or.inr (ih bs hrec)⟩

theorem versionLt_asymm {v1 v2 : String} (h : versionLt v1 v2 = true) : versionLt v2 v1 = false :=
  charListLt_asymm _ _ h

theorem versionLt_irrefl (v : String) : versionLt v v = false :=
  charListLt_irrefl _

example : merge (α := Nat) ⟨"e", [⟨"u", "1", 3⟩]⟩ none = some ⟨"e", [⟨"u", "1", 3⟩]⟩ := by decide

example :
    merge (α := Nat) ⟨"e", [⟨"u", "1", 3⟩]⟩ (some ⟨"e", [⟨"u", "2", 5⟩]⟩)
      = some ⟨"e", [⟨"u", "2", 5⟩]⟩ := by decide

example :
    merge (α := Nat) ⟨"e", [⟨"u", "2", 5⟩]⟩ (some ⟨"e", [⟨"u", "1", 3⟩]⟩)
      = some ⟨"e", [⟨"u", "2", 5⟩]⟩ := by decide

/-- The external version held by the store for one document id: a 404
(tolerated by `ignore=[404]`) is `none` and is read as version 0 by
`existing.get("_version", 0)` (indexer/utils/indexer.py lines 52-58). -/
def storedVersion {α : Type} (s : Option (Nat × ESDocument α)) : Nat :=
  match s with
  | none => 0
  | some (v, _) => v

/-- The document content held by the store, if any. -/
def storedContent {α : Type} (s : Option (Nat × ESDocument α)) : Option (ESDocument α) :=
  s.map Prod.snd

/-- Result of one pass through the body of the while loop in
`BaseIndexer.index` (indexer/utils/indexer.py lines 51-84). -/
inductive WriteStep (α : Type) where
  | written (version : Nat) (doc : ESDocument α)
  | conflict
  | connFailure
  | crashed
deriving Repr, DecidableEq

/-- One read-merge-write attempt (indexer/utils/indexer.py lines
52-69): read the stored document tolerating absence, compute
`updated_version = stored version + 1`, merge, then write with
`version_type="external"`.  The store may have advanced between the
read and the write, so the attempt sees `atRead` and `atWrite`.  An
externally versioned write succeeds exactly when the submitted version
is strictly greater than the version the store holds at write time;
otherwise the store rejects it (`RequestError`, a version conflict).  A
broken transport raises `ConnectionError` instead.  A crash of the
merge itself (empty bundles list in the new content) is not caught by
the source. -/
def writeAttempt {α : Type} (new_content : ESDocument α)
    (atRead atWrite : Option (Nat × ESDocument α)) (connOk : Bool) : WriteStep α :=
  let updated_version := storedVersion atRead + 1
  match merge new_content (storedContent atRead) with
  | none => .crashed
  | some updated_document =>
    if connOk then
      if storedVersion atWrite < updated_version then .written updated_version updated_document
      else .conflict
    else .connFailure

/-- What one attempt of the loop observes: store state at the read, at
the write, and whether the transport works. -/
structure AttemptEnv (α : Type) where
  atRead : Option (Nat × ESDocument α)
  atWrite : Option (Nat × ESDocument α)
  connOk : Bool
deriving Repr, DecidableEq

/-- Outcome of running the while loop of `BaseIndexer.index` for one
document against a finite schedule of attempt environments.  `sleeps`
records the arguments of the `sleep` calls in the order they happen. -/
inductive IndexOutcome (α : Type) where
  | indexed (attempts : Nat) (retriesLeft : Nat) (sleeps : List Nat)
      (version : Nat) (doc : ESDocument α)
  | raisedConnectionError (attempts : Nat) (sleeps : List Nat)
  | crashed (attempts : Nat)
  | pending (attempts : Nat) (retriesLeft : Nat) (sleeps : List Nat)
deriving Repr, DecidableEq

/-- The while loop of `BaseIndexer.index` (indexer/utils/indexer.py
lines 50-84).  A successful write leaves the loop; a version conflict
(`RequestError`) loops again without touching `retries`; a
`ConnectionError` with `retries > 0` decrements `retries` and sleeps
for the decremented value, while with `retries == 0` it re-raises the
connection error. -/
def runIndexLoop {α : Type} (new_content : ESDocument α) :
    List (AttemptEnv α) → Nat → Nat → List Nat → IndexOutcome α
  | [], retries, attempts, sleeps => .pending attempts retries sleeps
  | e :: rest, retries, attempts, sleeps =>
    match writeAttempt new_content e.atRead e.atWrite e.connOk with
    | .written v d => .indexed (attempts + 1) retries sleeps v d
    | .crashed => .crashed (attempts + 1)
    | .conflict => runIndexLoop new_content rest retries (attempts + 1) sleeps
    | .connFailure =>
      if 0 < retries then
        runIndexLoop new_content rest (retries - 1) (attempts + 1) (sleeps ++ [retries - 1])
      else .raisedConnectionError (attempts + 1) sleeps

/-- Entry point for one document: `retries = 3`
(indexer/utils/indexer.py line 50). -/
def indexDocument {α : Type} (new_content : ESDocument α)
    (envs : List (AttemptEnv α)) : IndexOutcome α :=
  runIndexLoop new_content envs 3 0 []

/-- A write attempt over a broken transport fails with a connection
failure whatever the store holds, provided the merge itself does not
crash. -/
theorem writeAttempt_connFailure {α : Type} (nc : ESDocument α) (nb : BundleEntry α)
    (hb : nc.bundles.head? = some nb)
    (atRead atWrite : Option (Nat × ESDocument α)) :
    writeAttempt nc atRead atWrite false = .connFailure := by
  cases atRead with
  | none => simp [writeAttempt, storedContent, merge]
  | some p => simp [writeAttempt, storedContent, merge, hb]

/-- Claim C1: merging an equal-or-older re-delivery of a bundle into a
stored Document never regresses content contributed by the newer
version: when every stored entry for the uuid of the incoming bundle is
at least as new, the merge returns the stored document unchanged; and
for two deliveries of the same bundle at versions v1 < v2, merging them
in either order yields the same final document, the one carrying the v2
entry and its contents. -/
theorem merge_preserves_newer_bundle_content {α : Type}
    (sd nd : ESDocument α) (nb : BundleEntry α)
    (hb : nd.bundles.head? = some nb)
    (hid : nd.entity_id = sd.entity_id)
    (hold : ∀ b ∈ sd.bundles, b.uuid = nb.uuid → versionLe nb.version b.version = true) :
    merge nd (some sd) = some sd
  ∧ ∀ (e u v1 v2 : String) (c1 c2 : α), versionLt v1 v2 = true →
      (merge ⟨e, [⟨u, v1, c1⟩]⟩ none).bind (fun s => merge ⟨e, [⟨u, v2, c2⟩]⟩ (some s))
        = some ⟨e, [⟨u, v2, c2⟩]⟩
    ∧ (merge ⟨e, [⟨u, v2, c2⟩]⟩ none).bind (fun s => merge ⟨e, [⟨u, v1, c1⟩]⟩ (some s))
        = some ⟨e, [⟨u, v2, c2⟩]⟩ := by
  constructor
  · have hmap : (sd.bundles.map fun bundle =>
        if bundle.uuid == nb.uuid then latestBundle bundle nb else bundle) = sd.bundles := by
      apply map_eq_self_of_fixes
      intro b hbmem
      by_cases hu : b.uuid == nb.uuid
      · have hle := hold b hbmem (by simpa [beq_iff_eq] using hu)
        have hlt : versionLt b.version nb.version = false := by
          simpa [versionLe] using hle
        simp [hu, latestBundle, hlt]
      · simp [hu]
    simp only [merge, hb, hmap]
    cases sd with
    | mk sid sbundles =>
      cases nd with
      | mk nid nbundles => simp_all
  · intro e u v1 v2 c1 c2 hv
    have hv2 : versionLt v2 v1 = false := versionLt_asymm hv
    constructor
    · simp [merge, latestBundle, hv]
    · simp [merge, latestBundle, hv2]

/-- Witness for claim C1 at a concrete input: re-delivering the older
version "1" of bundle "u" against a stored document already at version
"2" leaves the stored document unchanged. -/
theorem merge_preserves_newer_bundle_content_witness :
    merge (α := Nat) ⟨"e", [⟨"u", "1", 3⟩]⟩ (some ⟨"e", [⟨"u", "2", 5⟩]⟩)
      = some ⟨"e", [⟨"u", "2", 5⟩]⟩ :=
  (merge_preserves_newer_bundle_content ⟨"e", [⟨"u", "2", 5⟩]⟩ ⟨"e", [⟨"u", "1", 3⟩]⟩
    ⟨"u", "1", 3⟩ rfl rfl
    (by
      intro b hbmem hu
      simp only [List.mem_singleton] at hbmem
      subst hbmem
      decide)).1

/-- Claim C2: with no stored document the merge returns the new content
verbatim; otherwise, position by position over the stored bundles list,
the stored entry whose uuid equals the uuid of the new bundle is
replaced by whichever of the two entries has the strictly higher
version (the stored entry on ties), and every stored entry with a
different uuid passes through unchanged. -/
theorem merge_bundle_resolution {α : Type} (nd : ESDocument α) :
    merge nd none = some nd
  ∧ ∀ (sd : ESDocument α) (nb : BundleEntry α), nd.bundles.head? = some nb →
      ∃ rd : ESDocument α, merge nd (some sd) = some rd
        ∧ rd.entity_id = nd.entity_id
        ∧ rd.bundles.length = sd.bundles.length
        ∧ ∀ (i : Nat) (b : BundleEntry α), sd.bundles[i]? = some b →
            (b.uuid = nb.uuid →
              (versionLt b.version nb.version = true → rd.bundles[i]? = some nb)
              ∧ (versionLt b.version nb.version = false → rd.bundles[i]? = some b))
          ∧ (b.uuid ≠ nb.uuid → rd.bundles[i]? = some b) := by
  refine ⟨rfl, ?_⟩
  intro sd nb hb
  refine ⟨{ nd with bundles := sd.bundles.map fun bundle =>
      if bundle.uuid == nb.uuid then latestBundle bundle nb else bundle },
    by simp only [merge, hb], rfl, by simp, ?_⟩
  intro i b hib
  constructor
  · intro hu
    constructor
    · intro hlt
      simp [List.getElem?_map, hib, hu, latestBundle, hlt]
    · intro hlt
      simp [List.getElem?_map, hib, hu, latestBundle, hlt]
  · intro hu
    have hbe : (b.uuid == nb.uuid) = false := by simpa [beq_iff_eq] using hu
    simp [List.getElem?_map, hib]
    exact fun h => absurd h hu

/-- Witness for claim C2 at a concrete input: a stored document with a
matching older entry and an unrelated entry is merged entry-wise. -/
theorem merge_bundle_resolution_witness :
    ∃ rd : ESDocument Nat,
      merge ⟨"e", [⟨"u", "3", 7⟩]⟩ (some ⟨"e", [⟨"u", "2", 5⟩, ⟨"w", "9", 1⟩]⟩) = some rd
        ∧ rd.entity_id = "e"
        ∧ rd.bundles.length = 2
        ∧ ∀ (i : Nat) (b : BundleEntry Nat),
            ([⟨"u", "2", 5⟩, ⟨"w", "9", 1⟩] : List (BundleEntry Nat))[i]? = some b →
            (b.uuid = "u" →
              (versionLt b.version "3" = true → rd.bundles[i]? = some ⟨"u", "3", 7⟩)
              ∧ (versionLt b.version "3" = false → rd.bundles[i]? = some b))
          ∧ (b.uuid ≠ "u" → rd.bundles[i]? = some b) :=
  (merge_bundle_resolution ⟨"e", [⟨"u", "3", 7⟩]⟩).2
    ⟨"e", [⟨"u", "2", 5⟩, ⟨"w", "9", 1⟩]⟩ ⟨"u", "3", 7⟩ rfl

/-- Claim C5: the version recorded for a bundle uuid is monotonically
non-decreasing under merge: every stored entry reappears in the merge
result under the same uuid with an equal or higher version, and the
delivery order v1, then v2 > v1, then v1 again still leaves the entry
for the uuid at v2. -/
theorem merge_version_monotonic {α : Type} :
    (∀ (sd nd rd : ESDocument α), merge nd (some sd) = some rd →
      ∀ b ∈ sd.bundles, ∃ b2 ∈ rd.bundles, b2.uuid = b.uuid
        ∧ versionLe b.version b2.version = true)
  ∧ ∀ (e u v1 v2 : String) (c1 c2 c3 : α), versionLt v1 v2 = true →
      ((merge ⟨e, [⟨u, v1, c1⟩]⟩ none).bind fun s1 =>
        (merge ⟨e, [⟨u, v2, c2⟩]⟩ (some s1)).bind fun s2 =>
          merge ⟨e, [⟨u, v1, c3⟩]⟩ (some s2))
        = some ⟨e, [⟨u, v2, c2⟩]⟩
    ∧ bundleVersionOf (⟨e, [⟨u, v2, c2⟩]⟩ : ESDocument α) u = some v2 := by
  constructor
  · intro sd nd rd hm b hbmem
    cases hhead : nd.bundles.head? with
    | none => simp [merge, hhead] at hm
    | some nb =>
      simp only [merge, hhead, Option.some.injEq] at hm
      subst hm
      refine ⟨if b.uuid == nb.uuid then latestBundle b nb else b,
        List.mem_map_of_mem _ hbmem, ?_⟩
      by_cases hu : b.uuid == nb.uuid
      · cases hlt : versionLt b.version nb.version with
        | false => simp [hu, latestBundle, hlt, versionLe, versionLt_irrefl]
        | true =>
          have := versionLt_asymm hlt
          simp only [beq_iff_eq] at hu
          simp [hu, latestBundle, hlt, versionLe, this]
      · simp [hu, versionLe, versionLt_irrefl]
  · intro e u v1 v2 c1 c2 c3 hv
    have hv2 : versionLt v2 v1 = false := versionLt_asymm hv
    constructor
    · simp [merge, latestBundle, hv, hv2]
    · simp [bundleVersionOf]

/-- Witness for claim C5 at a concrete input: delivering versions "1",
"2", "1" of bundle "u" in that order leaves the entry at version "2". -/
theorem merge_version_monotonic_witness :
    ((merge (α := Nat) ⟨"e", [⟨"u", "1", 3⟩]⟩ none).bind fun s1 =>
      (merge ⟨"e", [⟨"u", "2", 5⟩]⟩ (some s1)).bind fun s2 =>
        merge ⟨"e", [⟨"u", "1", 7⟩]⟩ (some s2))
      = some ⟨"e", [⟨"u", "2", 5⟩]⟩
  ∧ bundleVersionOf (⟨"e", [⟨"u", "2", 5⟩]⟩ : ESDocument Nat) "u" = some "2" :=
  merge_version_monotonic.2 "e" "u" "1" "2" 3 5 7 (by decide)

/-- Claim C6: when the stored document is present but none of its
bundle entries carries the uuid of the new bundle, the merge result has
exactly the stored bundles list; the provenance entry of the new bundle
is not added. -/
theorem merge_ignores_unmatched_new_bundle {α : Type}
    (sd nd : ESDocument α) (nb : BundleEntry α)
    (hb : nd.bundles.head? = some nb)
    (hdiff : ∀ b ∈ sd.bundles, b.uuid ≠ nb.uuid) :
    ∃ rd : ESDocument α, merge nd (some sd) = some rd ∧ rd.bundles = sd.bundles := by
  refine ⟨{ nd with bundles := sd.bundles.map fun bundle =>
      if bundle.uuid == nb.uuid then latestBundle bundle nb else bundle },
    by simp only [merge, hb], ?_⟩
  simp only
  apply map_eq_self_of_fixes
  intro b hbmem
  have hbe : (b.uuid == nb.uuid) = false := by simpa [beq_iff_eq] using hdiff b hbmem
  simp [hbe]

/-- Witness for claim C6 at a concrete input: a new bundle "u" merged
into a stored document holding only bundle "w" leaves the stored list
as it was and does not add an entry for "u". -/
theorem merge_ignores_unmatched_new_bundle_witness :
    ∃ rd : ESDocument Nat,
      merge ⟨"e", [⟨"u", "1", 3⟩]⟩ (some ⟨"e", [⟨"w", "9", 1⟩]⟩) = some rd
        ∧ rd.bundles = [⟨"w", "9", 1⟩] :=
  merge_ignores_unmatched_new_bundle ⟨"e", [⟨"w", "9", 1⟩]⟩ ⟨"e", [⟨"u", "1", 3⟩]⟩
    ⟨"u", "1", 3⟩ rfl
    (by
      intro b hbmem
      simp only [List.mem_singleton] at hbmem
      subst hbmem
      decide)

/-- Claim C3: when every store attempt fails with a connectivity
error, the loop retries 3 times with a shrinking delay between attempts
(sleeping 2, then 1, then 0 seconds) and then re-raises the connection
error: 4 consecutive connectivity failures cause exactly 4 total
attempts and the raise, whatever environments would have followed. -/
theorem index_connection_retries_exhausted {α : Type}
    (new_content : ESDocument α) (nb : BundleEntry α)
    (hb : new_content.bundles.head? = some nb)
    (e1 e2 e3 e4 : AttemptEnv α) (rest : List (AttemptEnv α))
    (h1 : e1.connOk = false) (h2 : e2.connOk = false)
    (h3 : e3.connOk = false) (h4 : e4.connOk = false) :
    indexDocument new_content (e1 :: e2 :: e3 :: e4 :: rest)
      = .raisedConnectionError 4 [2, 1, 0]
  ∧ List.Chain' (fun a b => b < a) [2, 1, 0] := by
  refine ⟨?_, by simp [List.chain'_cons]⟩
  simp [indexDocument, runIndexLoop, h1, h2, h3, h4,
        writeAttempt_connFailure new_content nb hb]

/-- Witness for claim C3 at a concrete input: four connection failures
on an absent stored document end in a raise after 4 attempts with
sleeps 2, 1, 0. -/
theorem index_connection_retries_exhausted_witness :
    indexDocument (α := Nat) ⟨"e", [⟨"u", "1", 3⟩]⟩
        [⟨none, none, false⟩, ⟨none, none, false⟩, ⟨none, none, false⟩, ⟨none, none, false⟩]
      = .raisedConnectionError 4 [2, 1, 0]
  ∧ List.Chain' (fun a b => b < a) [2, 1, 0] :=
  index_connection_retries_exhausted ⟨"e", [⟨"u", "1", 3⟩]⟩ ⟨"u", "1", 3⟩ rfl
    ⟨none, none, false⟩ ⟨none, none, false⟩ ⟨none, none, false⟩ ⟨none, none, false⟩ []
    rfl rfl rfl rfl

/-- Claim C4: a missing stored document reads as version 0 with empty
content and merges to the new content verbatim; every successful write
submits exactly the version read plus 1; the externally versioned write
is rejected as a conflict when the stored version has advanced past
what was read; and a conflict rejection restarts the full
read-merge-write cycle without consuming the connectivity retry
budget. -/
theorem index_read_merge_write_cycle {α : Type} :
    (∀ nc : ESDocument α, storedVersion (α := α) none = 0
        ∧ storedContent (α := α) none = none ∧ merge nc none = some nc)
  ∧ (∀ (nc : ESDocument α) (atRead atWrite : Option (Nat × ESDocument α)) (c : Bool)
        (v : Nat) (d : ESDocument α),
        writeAttempt nc atRead atWrite c = .written v d → v = storedVersion atRead + 1)
  ∧ (∀ (nc merged : ESDocument α) (atRead atWrite : Option (Nat × ESDocument α)),
        merge nc (storedContent atRead) = some merged →
        storedVersion atRead + 1 ≤ storedVersion atWrite →
        writeAttempt nc atRead atWrite true = .conflict)
  ∧ (∀ (nc : ESDocument α) (e : AttemptEnv α) (rest : List (AttemptEnv α))
        (retries attempts : Nat) (sleeps : List Nat),
        writeAttempt nc e.atRead e.atWrite e.connOk = .conflict →
        runIndexLoop nc (e :: rest) retries attempts sleeps
          = runIndexLoop nc rest retries (attempts + 1) sleeps) := by
  refine ⟨fun nc => ⟨rfl, rfl, rfl⟩, ?_, ?_, ?_⟩
  · intro nc atRead atWrite c v d h
    cases hm : merge nc (storedContent atRead) with
    | none => simp [writeAttempt, hm] at h
    | some md =>
      cases c with
      | false => simp [writeAttempt, hm] at h
      | true =>
        simp only [writeAttempt, hm, if_true] at h
        by_cases hv : storedVersion atWrite < storedVersion atRead + 1
        · simp only [hv, if_pos, WriteStep.written.injEq] at h
          exact h.1.symm
        · simp [hv] at h
  · intro nc merged atRead atWrite hm hv
    have hnlt : ¬ storedVersion atWrite < storedVersion atRead + 1 := Nat.not_lt.mpr hv
    simp [writeAttempt, hm, hnlt]
  · intro nc e rest retries attempts sleeps h
    simp only [runIndexLoop, h]

/-- Witness for claim C4 at a concrete input: a competing writer
advanced the store from version 2 to version 3 between the read and the
write, so the submitted version 3 is rejected as a conflict and the
loop restarts with the retry budget intact. -/
theorem index_read_merge_write_cycle_witness :
    writeAttempt (α := Nat) ⟨"e", [⟨"u", "1", 3⟩]⟩
        (some (2, ⟨"e", [⟨"u", "1", 9⟩]⟩)) (some (3, ⟨"e", [⟨"u", "1", 9⟩]⟩)) true
      = .conflict
  ∧ runIndexLoop (α := Nat) ⟨"e", [⟨"u", "1", 3⟩]⟩
        [⟨some (2, ⟨"e", [⟨"u", "1", 9⟩]⟩), some (3, ⟨"e", [⟨"u", "1", 9⟩]⟩), true⟩] 3 0 []
      = runIndexLoop ⟨"e", [⟨"u", "1", 3⟩]⟩ [] 3 1 [] := by
  constructor
  · exact index_read_merge_write_cycle.2.2.1 ⟨"e", [⟨"u", "1", 3⟩]⟩ ⟨"e", [⟨"u", "1", 9⟩]⟩
      (some (2, ⟨"e", [⟨"u", "1", 9⟩]⟩)) (some (3, ⟨"e", [⟨"u", "1", 9⟩]⟩)) (by decide)
      (by decide)
  · exact index_read_merge_write_cycle.2.2.2 ⟨"e", [⟨"u", "1", 3⟩]⟩
      ⟨some (2, ⟨"e", [⟨"u", "1", 9⟩]⟩), some (3, ⟨"e", [⟨"u", "1", 9⟩]⟩), true⟩ [] 3 0 []
      (by decide)

/-- Prefix match on character lists: the first list is a prefix of the
second. -/
def leadMatch : List Char → List Char → Bool
  | [], _ => true
  | _ :: _, [] => false
  | p :: ps, c :: cs => p == c && leadMatch ps cs

/-- Python `pat in s` on strings: substring containment. -/
def containsSeq (pat : List Char) : List Char → Bool
  | [] => leadMatch pat []
  | c :: cs => leadMatch pat (c :: cs) || containsSeq pat cs

/-- Python `s.endswith(pat)`. -/
def endsWithSeq (pat s : List Char) : Bool :=
  leadMatch pat.reverse s.reverse

/-- The zarr-chunk test of transformers.py lines 462 and 488:
`'.zarr!' in name and not name.endswith('.zattrs')`. -/
def isZarrChunkName (name : String) : Bool :=
  containsSeq ".zarr!".toList name.toList && !endsWithSeq ".zattrs".toList name.toList

/-- Protocol subtypes distinguished by `TransformerVisitor.visit`
(transformers.py lines 454-459); `other` stands for any protocol class
outside the four recognized ones. -/
inductive ProtocolSubtype where
  | libraryPreparation
  | sequencing
  | analysis
  | imaging
  | other
deriving Repr, DecidableEq

structure ProtocolInfo where
  document_id : String
  subtype : ProtocolSubtype
deriving Repr, DecidableEq

/-- The concrete api classes the visitor and the ancestor walk
dispatch on. -/
inductive EntityKind where
  | specimenFromOrganism
  | cellSuspension
  | cellLine
  | donorOrganism
  | organoid
  | process
  | file
  | project
  | other
deriving Repr, DecidableEq

/-- A typed node of the bundle entity DAG.  `manifestName` is the
manifest entry name (meaningful for files), `protocols` the protocols
of a process, `parents` the parent links used by the upward walk.
Diamonds of the source DAG appear here as repeated subtrees carrying
the same `document_id`. -/
inductive GraphEntity where
  | mk (document_id : String) (kind : EntityKind) (manifestName : String)
      (protocols : List ProtocolInfo) (parents : List GraphEntity)
deriving Repr

def GraphEntity.document_id : GraphEntity → String
  | .mk d _ _ _ _ => d

def GraphEntity.kind : GraphEntity → EntityKind
  | .mk _ k _ _ _ => k

def GraphEntity.manifestName : GraphEntity → String
  | .mk _ _ n _ _ => n

def GraphEntity.protocols : GraphEntity → List ProtocolInfo
  | .mk _ _ _ ps _ => ps

def GraphEntity.parents : GraphEntity → List GraphEntity
  | .mk _ _ _ _ ps => ps

/-- Python dict assignment `m[k] = v` on an insertion-ordered
association list: an existing key keeps its position and gets the new
value, a new key is appended. -/
def dictInsert {β : Type} (k : String) (v : β) (m : List (String × β)) : List (String × β) :=
  if m.any fun p => p.1 == k then m.map fun p => if p.1 == k then (k, v) else p
  else m ++ [(k, v)]

/-- The typed buckets of `TransformerVisitor` (transformers.py lines
423-440), each keyed by document id. -/
structure TransformerVisitor where
  specimens : List (String × GraphEntity)
  cell_suspensions : List (String × GraphEntity)
  cell_lines : List (String × GraphEntity)
  donors : List (String × GraphEntity)
  organoids : List (String × GraphEntity)
  protocols : List (String × ProtocolInfo)
  files : List (String × GraphEntity)
deriving Repr

def emptyVisitor : TransformerVisitor :=
  ⟨[], [], [], [], [], [], []⟩

/-- `TransformerVisitor.visit` (transformers.py lines 442-466): one
isinstance dispatch per entity kind; a process contributes its
protocols of a recognized subtype; a file whose manifest name passes
the zarr-chunk test is skipped; entity kinds matching no branch are
ignored. -/
def visit (st : TransformerVisitor) (e : GraphEntity) : TransformerVisitor :=
  match e.kind with
  | .specimenFromOrganism => { st with specimens := dictInsert e.document_id e st.specimens }
  | .cellSuspension => { st with cell_suspensions := dictInsert e.document_id e st.cell_suspensions }
  | .cellLine => { st with cell_lines := dictInsert e.document_id e st.cell_lines }
  | .donorOrganism => { st with donors := dictInsert e.document_id e st.donors }
  | .organoid => { st with organoids := dictInsert e.document_id e st.organoids }
  | .process =>
      { st with protocols := e.protocols.foldl (fun acc p =>
          if p.subtype == .other then acc else dictInsert p.document_id p acc) st.protocols }
  | .file =>
      if isZarrChunkName e.manifestName then st
      else { st with files := dictInsert e.document_id e st.files }
  | .project => st
  | .other => st

/-- A traversal (`accept` plus `ancestors`, implemented by the external
metadata api) presents the visitor with some finite sequence of
entities; the buckets fold `visit` over that sequence. -/
def visitAll (es : List GraphEntity) (st : TransformerVisitor) : TransformerVisitor :=
  es.foldl visit st

/-- The kinds of `sample_types` (transformers.py lines 28-29): cell
line, organoid, specimen from organism. -/
def isSampleKind : EntityKind → Bool
  | .specimenFromOrganism => true
  | .cellLine => true
  | .organoid => true
  | _ => false

mutual

/-- `Transformer._find_ancestor_samples` (transformers.py lines
57-66): a sample-typed biomaterial registers itself under its document
id and stops the walk; any other entity recurses into its parents. -/
def find_ancestor_samples : GraphEntity → List (String × GraphEntity) → List (String × GraphEntity)
  | .mk d k mn pr pa, samples =>
    if isSampleKind k then dictInsert d (.mk d k mn pr pa) samples
    else find_ancestor_samples_over pa samples

/-- The `for parent in entity.parents.values()` loop of
`_find_ancestor_samples`, threading the shared dict. -/
def find_ancestor_samples_over : List GraphEntity → List (String × GraphEntity) → List (String × GraphEntity)
  | [], samples => samples
  | p :: ps, samples => find_ancestor_samples_over ps (find_ancestor_samples p samples)

end

structure ProjectRecord where
  document_id : String
deriving Repr, DecidableEq

/-- The two fatal failures of `Transformer._get_project`. -/
inductive TransformFailure where
  | requirementViolated
  | emptyProjectsUnpack
deriving Repr, DecidableEq

/-- Modelled from the spec: `reject` (azul/__init__.py, absent from the
sources) raises a fatal requirement error when its first argument is
truthy; a list argument is truthy exactly when it is non-empty. -/
def reject (condition : Bool) : Except TransformFailure Unit :=
  if condition then .error .requirementViolated else .ok ()

/-- `Transformer._get_project` (transformers.py lines 392-396):
`project, *additional_projects = bundle.projects.values()` raises a
ValueError on an empty collection; then
`reject(additional_projects, ...)` fails when more than one project
exists; otherwise the single project is returned. -/
def get_project (projects : List ProjectRecord) : Except TransformFailure ProjectRecord :=
  match projects with
  | [] => .error .emptyProjectsUnpack
  | project :: additional_projects => do
    let _ ← reject !additional_projects.isEmpty
    return project

/-- The slice of an api bundle the transformer claims reason about:
its identity, its file entities and its project records. -/
structure MetadataBundle where
  uuid : String
  version : String
  files : List GraphEntity
  projects : List ProjectRecord
deriving Repr

/-- One contribution produced by `FileTransformer.transform`: the root
file entity, the bundle identity, the project, and the `files` list of
the contribution contents, which for the file transformer is exactly
the root file (transformers.py line 504). -/
structure FileContribution where
  entity_id : String
  bundle_uuid : String
  bundle_version : String
  project : ProjectRecord
  files : List GraphEntity
deriving Repr

/-- `FileTransformer.transform` (transformers.py lines 474-507)
restricted to the control flow the claims are about: `_get_project`
runs before the loop over `bundle.files.values()`, any fatal failure
of it aborts the transform, and every file whose manifest name passes
the zarr-chunk test is skipped as a root; each remaining root yields a
contribution whose contents hold `files=[root]`. -/
def fileTransform (b : MetadataBundle) : Except TransformFailure (List FileContribution) :=
  match get_project b.projects with
  | .error e => .error e
  | .ok project =>
    .ok ((b.files.filter fun f => !isZarrChunkName f.manifestName).map fun f =>
      { entity_id := f.document_id, bundle_uuid := b.uuid, bundle_version := b.version,
        project := project, files := [f] })

/-- A dict assignment preserves any property that holds of every
stored pair and of the inserted pair. -/
theorem dictInsert_forall {β : Type} (P : String × β → Prop) (k : String) (v : β)
    (m : List (String × β)) (hm : ∀ p ∈ m, P p) (hv : P (k, v)) :
    ∀ p ∈ dictInsert k v m, P p := by
  intro p hp
  unfold dictInsert at hp
  split at hp
  · rcases List.mem_map.mp hp with ⟨q, hq, hpq⟩
    by_cases h : (q.1 == k) = true
    · rw [if_pos h] at hpq
      exact hpq ▸ hv
    · rw [if_neg h] at hpq
      exact hpq ▸ hm q hq
  · rcases List.mem_append.mp hp with h | h
    · exact hm p h
    · simp only [List.mem_singleton] at h
      exact h ▸ hv

/-- A dict assignment preserves distinctness of the keys. -/
theorem dictInsert_keys_nodup {β : Type} (k : String) (v : β) (m : List (String × β))
    (h : (m.map Prod.fst).Nodup) : ((dictInsert k v m).map Prod.fst).Nodup := by
  unfold dictInsert
  split
  · have heq : (m.map fun p => if p.1 == k then (k, v) else p).map Prod.fst
        = m.map Prod.fst := by
      rw [List.map_map]
      apply List.map_congr_left
      intro p hp
      by_cases hq : (p.1 == k) = true
      · simp only [Function.comp_apply]
        rw [if_pos hq]
        exact (beq_iff_eq.mp hq).symm
      · simp only [Function.comp_apply]
        rw [if_neg hq]
    rw [heq]
    exact h
  · rename_i hany
    rw [List.map_append]
    refine List.Nodup.append h (List.nodup_singleton k) ?_
    intro a ha hb
    simp only [List.map_cons, List.map_nil, List.mem_singleton] at hb
    subst hb
    rcases List.mem_map.mp ha with ⟨p, hp, hpk⟩
    apply hany
    rw [List.any_eq_true]
    exact ⟨p, hp, by simp [hpk]⟩

/-- `visit` never lets a zarr-chunk file into the `files` bucket. -/
theorem visit_keeps_files_clean (st : TransformerVisitor)
    (h : ∀ p ∈ st.files, isZarrChunkName (p.2.manifestName) = false)
    (e : GraphEntity) :
    ∀ p ∈ (visit st e).files, isZarrChunkName (p.2.manifestName) = false := by
  cases e with
  | mk d k mn pr pa =>
    cases k with
    | file =>
      simp only [visit, GraphEntity.kind, GraphEntity.manifestName, GraphEntity.document_id]
      cases hz : isZarrChunkName mn with
      | true => simp only [if_true]; exact h
      | false =>
        simp only [Bool.false_eq_true, if_false]
        exact dictInsert_forall _ d _ st.files h (by simpa [GraphEntity.manifestName] using hz)
    | specimenFromOrganism => exact h
    | cellSuspension => exact h
    | cellLine => exact h
    | donorOrganism => exact h
    | organoid => exact h
    | process => exact h
    | project => exact h
    | other => exact h

/-- Folding `visit` over any traversal keeps the `files` bucket free
of zarr-chunk files. -/
theorem visitAll_keeps_files_clean (es : List GraphEntity) (st : TransformerVisitor)
    (h : ∀ p ∈ st.files, isZarrChunkName (p.2.manifestName) = false) :
    ∀ p ∈ (visitAll es st).files, isZarrChunkName (p.2.manifestName) = false := by
  induction es generalizing st with
  | nil => exact h
  | cons e es ih => exact ih (visit st e) (visit_keeps_files_clean st h e)

mutual

/-- The keys of the samples dict stay distinct through the ancestor
walk. -/
theorem find_ancestor_samples_keys_nodup (e : GraphEntity)
    (samples : List (String × GraphEntity)) (h : (samples.map Prod.fst).Nodup) :
    ((find_ancestor_samples e samples).map Prod.fst).Nodup :=
  match e with
  | .mk d k mn pr pa => by
    unfold find_ancestor_samples
    split
    · exact dictInsert_keys_nodup d _ samples h
    · exact find_ancestor_samples_over_keys_nodup pa samples h

/-- The keys of the samples dict stay distinct through the parents
loop of the ancestor walk. -/
theorem find_ancestor_samples_over_keys_nodup (es : List GraphEntity)
    (samples : List (String × GraphEntity)) (h : (samples.map Prod.fst).Nodup) :
    ((find_ancestor_samples_over es samples).map Prod.fst).Nodup :=
  match es with
  | [] => by
    unfold find_ancestor_samples_over
    exact h
  | p :: ps => by
    unfold find_ancestor_samples_over
    exact find_ancestor_samples_over_keys_nodup ps _ (find_ancestor_samples_keys_nodup p samples h)

end

/-- Claim C7: a file whose manifest name contains the marker ".zarr!"
and does not end with ".zattrs" is excluded from all transformer
output: `TransformerVisitor.visit` ignores it, so it is absent from
the `files` bucket of any traversal; `FileTransformer.transform` skips
it as a root; and no contribution of the file transformer carries such
a file in its `files` list. -/
theorem zarr_chunks_excluded_from_output :
    (∀ (st : TransformerVisitor) (e : GraphEntity), e.kind = .file →
        isZarrChunkName e.manifestName = true → visit st e = st)
  ∧ (∀ es : List GraphEntity,
        ∀ p ∈ (visitAll es emptyVisitor).files, isZarrChunkName (p.2.manifestName) = false)
  ∧ (∀ (b : MetadataBundle) (f : GraphEntity), isZarrChunkName f.manifestName = true →
        f ∉ b.files.filter fun g => !isZarrChunkName g.manifestName)
  ∧ (∀ (b : MetadataBundle) (cs : List FileContribution), fileTransform b = .ok cs →
        ∀ c ∈ cs, ∀ f ∈ c.files, isZarrChunkName f.manifestName = false) := by
  refine ⟨?_, ?_, ?_, ?_⟩
  · intro st e hk hz
    cases e with
    | mk d k mn pr pa =>
      simp only [GraphEntity.kind] at hk
      subst hk
      simp only [visit, GraphEntity.kind, GraphEntity.manifestName] at hz ⊢
      rw [if_pos hz]
  · intro es
    exact visitAll_keeps_files_clean es emptyVisitor (by intro p hp; cases hp)
  · intro b f hz hmem
    rcases List.mem_filter.mp hmem with ⟨_, hpred⟩
    rw [hz] at hpred
    cases hpred
  · intro b cs hok c hc f hf
    unfold fileTransform at hok
    cases hg : get_project b.projects with
    | error e => rw [hg] at hok; cases hok
    | ok project =>
      rw [hg] at hok
      injection hok with hok
      subst hok
      rcases List.mem_map.mp hc with ⟨g, hg2, rfl⟩
      simp only [List.mem_singleton] at hf
      subst hf
      have := (List.mem_filter.mp hg2).2
      cases hzg : isZarrChunkName f.manifestName with
      | false => rfl
      | true => rw [hzg] at this; cases this

/-- Witness for claim C7 at a concrete input: visiting the zarr chunk
file "a.zarr!/0" changes nothing, and a traversal delivering it leaves
the `files` bucket free of zarr chunks. -/
theorem zarr_chunks_excluded_from_output_witness :
    visit emptyVisitor (.mk "f1" .file "a.zarr!/0" [] []) = emptyVisitor
  ∧ ∀ p ∈ (visitAll [.mk "f1" .file "a.zarr!/0" [] []] emptyVisitor).files,
      isZarrChunkName (p.2.manifestName) = false :=
  ⟨zarr_chunks_excluded_from_output.1 emptyVisitor (.mk "f1" .file "a.zarr!/0" [] [])
      rfl (by decide),
   zarr_chunks_excluded_from_output.2.1 [.mk "f1" .file "a.zarr!/0" [] []]⟩

/-- Unfolding equation: a sample-typed entity registers itself. -/
theorem fas_sample {d : String} {k : EntityKind} {mn : String} {pr : List ProtocolInfo}
    {pa : List GraphEntity} (samples : List (String × GraphEntity))
    (hk : isSampleKind k = true) :
    find_ancestor_samples (.mk d k mn pr pa) samples
      = dictInsert d (.mk d k mn pr pa) samples := by
  unfold find_ancestor_samples
  rw [if_pos hk]

/-- Unfolding equation: any other entity walks into its parents. -/
theorem fas_nonsample {d : String} {k : EntityKind} {mn : String} {pr : List ProtocolInfo}
    {pa : List GraphEntity} (samples : List (String × GraphEntity))
    (hk : isSampleKind k = false) :
    find_ancestor_samples (.mk d k mn pr pa) samples
      = find_ancestor_samples_over pa samples := by
  unfold find_ancestor_samples
  rw [if_neg (by simp [hk])]

/-- Unfolding equation: the parents loop on no parents. -/
theorem faso_nil (samples : List (String × GraphEntity)) :
    find_ancestor_samples_over [] samples = samples := by
  unfold find_ancestor_samples_over
  rfl

/-- Unfolding equation: the parents loop threads the dict left to
right. -/
theorem faso_cons (p : GraphEntity) (ps : List GraphEntity)
    (samples : List (String × GraphEntity)) :
    find_ancestor_samples_over (p :: ps) samples
      = find_ancestor_samples_over ps (find_ancestor_samples p samples) := by
  cases ps <;> rfl

/-- Claim C8: the ancestor-sample walk stops at sample-typed
biomaterials (specimen, cell line, organoid), recurses into the
parents of every other entity, and keys its results by document id so
the key list stays free of duplicates; a cell suspension with two
paths to the same specimen resolves to exactly one entry for it. -/
theorem ancestor_samples_resolution :
    (∀ (d : String) (k : EntityKind) (mn : String) (pr : List ProtocolInfo)
        (pa : List GraphEntity) (samples : List (String × GraphEntity)),
        isSampleKind k = true →
        find_ancestor_samples (.mk d k mn pr pa) samples
          = dictInsert d (.mk d k mn pr pa) samples)
  ∧ (∀ (d : String) (k : EntityKind) (mn : String) (pr : List ProtocolInfo)
        (pa : List GraphEntity) (samples : List (String × GraphEntity)),
        isSampleKind k = false →
        find_ancestor_samples (.mk d k mn pr pa) samples
          = find_ancestor_samples_over pa samples)
  ∧ (∀ (e : GraphEntity) (samples : List (String × GraphEntity)),
        (samples.map Prod.fst).Nodup →
        ((find_ancestor_samples e samples).map Prod.fst).Nodup)
  ∧ (∀ (s : GraphEntity), isSampleKind s.kind = true →
        ∀ di1 di2 dcs : String,
          find_ancestor_samples
            (.mk dcs .cellSuspension "" []
              [.mk di1 .other "" [] [s], .mk di2 .other "" [] [s]]) []
            = [(s.document_id, s)]) := by
  refine ⟨fun d k mn pr pa samples hk => fas_sample samples hk,
    fun d k mn pr pa samples hk => fas_nonsample samples hk,
    fun e samples h => find_ancestor_samples_keys_nodup e samples h, ?_⟩
  intro s hs di1 di2 dcs
  cases s with
  | mk d k mn pr pa =>
    simp only [GraphEntity.kind] at hs
    simp [fas_sample, fas_nonsample, faso_cons, faso_nil, hs, isSampleKind,
          dictInsert, GraphEntity.document_id]
    rw [fas_sample _ hs, fas_sample _ hs]
    simp [dictInsert]

/-- Witness for claim C8 at a concrete input: a cell suspension with
two distinct intermediate parents both descending from the one
specimen "s" resolves to the single sample entry for "s". -/
theorem ancestor_samples_resolution_witness :
    find_ancestor_samples
        (.mk "cs" .cellSuspension "" []
          [.mk "i1" .other "" [] [.mk "s" .specimenFromOrganism "" [] []],
           .mk "i2" .other "" [] [.mk "s" .specimenFromOrganism "" [] []]]) []
      = [("s", .mk "s" .specimenFromOrganism "" [] [])] :=
  ancestor_samples_resolution.2.2.2 (.mk "s" .specimenFromOrganism "" [] []) rfl "i1" "i2" "cs"

/-- Claim C9: a bundle with more than one project makes
`_get_project` fail with the fatal requirement violation before any
contribution is produced, and a bundle with exactly one project has
`_get_project` return it, after which the transform yields its
contributions. -/
theorem single_project_per_bundle :
    (∀ b : MetadataBundle, 1 < b.projects.length →
        get_project b.projects = .error .requirementViolated
        ∧ fileTransform b = .error .requirementViolated)
  ∧ (∀ (b : MetadataBundle) (p : ProjectRecord), b.projects = [p] →
        get_project b.projects = .ok p
        ∧ fileTransform b
            = .ok ((b.files.filter fun f => !isZarrChunkName f.manifestName).map fun f =>
                { entity_id := f.document_id, bundle_uuid := b.uuid,
                  bundle_version := b.version, project := p, files := [f] })) := by
  constructor
  · intro b hlen
    obtain ⟨p, rest, hp⟩ : ∃ p rest, b.projects = p :: rest := by
      cases hpp : b.projects with
      | nil => rw [hpp] at hlen; cases hlen
      | cons x xs => exact ⟨x, xs, rfl⟩
    cases rest with
    | nil => rw [hp] at hlen; simp at hlen
    | cons q rest2 =>
      have hg : get_project b.projects = .error .requirementViolated := by
        rw [hp]
        simp [get_project, reject]
      exact ⟨hg, by unfold fileTransform; rw [hg]⟩
  · intro b p hp
    have hg : get_project b.projects = .ok p := by
      rw [hp]
      simp [get_project, reject]
    exact ⟨hg, by unfold fileTransform; rw [hg]⟩

/-- Witness for claim C9 at a concrete input: two projects are
rejected, one project is returned and transformed. -/
theorem single_project_per_bundle_witness :
    (get_project [⟨"p1"⟩, ⟨"p2"⟩] = .error .requirementViolated
      ∧ fileTransform ⟨"b", "1", [], [⟨"p1"⟩, ⟨"p2"⟩]⟩ = .error .requirementViolated)
  ∧ (get_project [⟨"p1"⟩] = .ok ⟨"p1"⟩
      ∧ fileTransform ⟨"b", "1", [.mk "f1" .file "data.txt" [] []], [⟨"p1"⟩]⟩
          = .ok [{ entity_id := "f1", bundle_uuid := "b", bundle_version := "1",
                   project := ⟨"p1"⟩, files := [.mk "f1" .file "data.txt" [] []] }]) := by
  constructor
  · exact single_project_per_bundle.1 ⟨"b", "1", [], [⟨"p1"⟩, ⟨"p2"⟩]⟩ (by decide)
  · have := single_project_per_bundle.2 ⟨"b", "1", [.mk "f1" .file "data.txt" [] []], [⟨"p1"⟩]⟩
      ⟨"p1"⟩ rfl
    refine ⟨this.1, ?_⟩
    rw [this.2]
    simp [isZarrChunkName, containsSeq, leadMatch, endsWithSeq,
          GraphEntity.document_id, GraphEntity.manifestName]

/-- Claim C10: a bundle with zero projects also fails fatally: the
unpacking in `_get_project` raises on the empty collection, so no
transformer output is produced either. -/
theorem empty_projects_fatal :
    get_project ([] : List ProjectRecord) = .error .emptyProjectsUnpack
  ∧ ∀ b : MetadataBundle, b.projects = [] →
      fileTransform b = .error .emptyProjectsUnpack := by
  refine ⟨rfl, ?_⟩
  intro b hp
  unfold fileTransform
  rw [hp]
  rfl

/-- Witness for claim C10 at a concrete input: a bundle with files but
no project yields no contributions, only the fatal unpack error. -/
theorem empty_projects_fatal_witness :
    fileTransform ⟨"b", "1", [.mk "f1" .file "data.txt" [] []], []⟩
      = .error .emptyProjectsUnpack :=
  empty_projects_fatal.2 ⟨"b", "1", [.mk "f1" .file "data.txt" [] []], []⟩ rfl

end Azul
